import Mathlib

/-!
Shallow embedding of `src/lib.rs` of the `nitf_parser` crate.

The source is a nom-based decoder for the fixed NITF file header: a chain of
`take!(WIDTH)` slices (`header`), a 3-byte color sub-range decoded by
`parse_fbkgc`, an ASCII count field decoded by `num_from_str`
(`map!(digit, FromStr::from_str)` at type `Result<i8, ParseIntError>`), and a
count-driven repeating extraction `parse_lish_and_li`.

Byte buffers are `List Nat` (each element one byte), strings are `List Char`.
A nom byte parser that runs out of input returns `Incomplete`; that outcome is
the `incomplete` constructor here.  The `digit` recognizer is modelled with
complete-input semantics: a maximal nonempty run of ASCII digits is returned
as `done`, and an input that does not start with a digit is an `error`.
-/

namespace Nitf

/-- Field width constant from the source: `const FHDR_SIZE: usize = 4;`. -/
def FHDR_SIZE : Nat := 4

/-- Source: `const FVER_SIZE: usize = 5;`. -/
def FVER_SIZE : Nat := 5

/-- Source: `const CLEVEL_SIZE: usize = 2;`. -/
def CLEVEL_SIZE : Nat := 2

/-- Source: `const STYPE_SIZE: usize = 4;`. -/
def STYPE_SIZE : Nat := 4

/-- Source: `const OSTAID_SIZE: usize = 10;`. -/
def OSTAID_SIZE : Nat := 10

/-- Source: `const FDT_SIZE: usize = 14;`. -/
def FDT_SIZE : Nat := 14

/-- Source: `const FTITLE_SIZE: usize = 80;`. -/
def FTITLE_SIZE : Nat := 80

/-- Source: `const FSCLASS_SIZE: usize = 1;`. -/
def FSCLASS_SIZE : Nat := 1

/-- Source: `const FSCLSY_SIZE: usize = 2;`. -/
def FSCLSY_SIZE : Nat := 2

/-- Source: `const FSCODE_SIZE: usize = 11;`. -/
def FSCODE_SIZE : Nat := 11

/-- Source: `const FSCTLH_SIZE: usize = 2;`. -/
def FSCTLH_SIZE : Nat := 2

/-- Source: `const FSREL_SIZE: usize = 20;`. -/
def FSREL_SIZE : Nat := 20

/-- Source: `const FSDCTP_SIZE: usize = 2;`. -/
def FSDCTP_SIZE : Nat := 2

/-- Source: `const FSDCDT_SIZE: usize = 8;`. -/
def FSDCDT_SIZE : Nat := 8

/-- Source: `const FSDCXM_SIZE: usize = 4;`. -/
def FSDCXM_SIZE : Nat := 4

/-- Source: `const FSDG_SIZE: usize = 1;`. -/
def FSDG_SIZE : Nat := 1

/-- Source: `const FSDGDT_SIZE: usize = 8;`. -/
def FSDGDT_SIZE : Nat := 8

/-- Source: `const FSCLTX_SIZE: usize = 43;`. -/
def FSCLTX_SIZE : Nat := 43

/-- Source: `const FSCATP_SIZE: usize = 1;`. -/
def FSCATP_SIZE : Nat := 1

/-- Source: `const FSCAUT_SIZE: usize = 40;`. -/
def FSCAUT_SIZE : Nat := 40

/-- Source: `const FSCRSN_SIZE: usize = 1;`. -/
def FSCRSN_SIZE : Nat := 1

/-- Source: `const FSSRDT_SIZE: usize = 8;`. -/
def FSSRDT_SIZE : Nat := 8

/-- Source: `const FSCTLN_SIZE: usize = 15;`. -/
def FSCTLN_SIZE : Nat := 15

/-- Source: `const FSCOP_SIZE: usize = 5;`. -/
def FSCOP_SIZE : Nat := 5

/-- Source: `const FSCPYS_SIZE: usize = 5;`. -/
def FSCPYS_SIZE : Nat := 5

/-- Source: `const ENCRYP_SIZE: usize = 1;`. -/
def ENCRYP_SIZE : Nat := 1

/-- Source: `const FBKGC_SIZE: usize = 3;`. -/
def FBKGC_SIZE : Nat := 3

/-- Source: `const ONAME_SIZE: usize = 24;`. -/
def ONAME_SIZE : Nat := 24

/-- Source: `const OPHONE_SIZE: usize = 18;`. -/
def OPHONE_SIZE : Nat := 18

/-- Source: `const FL_SIZE: usize = 12;`. -/
def FL_SIZE : Nat := 12

/-- Source: `const HL_SIZE: usize = 6;`. -/
def HL_SIZE : Nat := 6

/-- Source: `const NUMI_SIZE: usize = 3;`. -/
def NUMI_SIZE : Nat := 3

/-- Source: `const LISH_SIZE: usize = 6;`. -/
def LISH_SIZE : Nat := 6

/-- Source: `const LI_SIZE: usize = 10;`. -/
def LI_SIZE : Nat := 10

/-- Rust `struct RGB(u8, u8, u8)`: an ordered triple of byte-valued channels. -/
structure RGB where
  c0 : Nat
  c1 : Nat
  c2 : Nat
deriving DecidableEq

/-- Result of a nom parser over a byte buffer: either `done rest output`, or
`incomplete` — nom's `Incomplete`, returned by `take!` when the requested
range exceeds the buffer length (the bound is checked before slicing). -/
inductive NomIResult (O : Type) where
  | done (rest : List Nat) (output : O)
  | incomplete
deriving DecidableEq

/-- Sequencing of nom byte parsers, as generated by the `do_parse!` chain:
run the first parser and feed its remaining input to the continuation. -/
def NomIResult.bind {α β : Type} (r : NomIResult α) (f : List Nat → α → NomIResult β) :
    NomIResult β :=
  match r with
  | .done rest a => f rest a
  | .incomplete => .incomplete

/-- nom `take!(n)`: consume exactly `n` bytes; the output is the consumed
prefix and the rest is the remaining suffix.  If fewer than `n` bytes remain
the parser reports `incomplete`; no slice is taken in that case. -/
def take (n : Nat) (input : List Nat) : NomIResult (List Nat) :=
  if n ≤ input.length then .done (input.drop n) (input.take n) else .incomplete

/-- The decoded NITF file header from the source `struct NitfHeader`, one
field per `take!` of the `do_parse!` chain in `header`.  The Rust struct also
declares directory fields `lish: Vec<&[u8]>` and `li: Vec<&[u8]>`, but the
struct literal built by `header` never populates them (their initializers are
absent — a compile error in the source), so the record `header` constructs is
exactly the fields below. -/
structure NitfHeader where
  fhdr : List Nat
  fver : List Nat
  clevel : List Nat
  stype : List Nat
  ostaid : List Nat
  fdt : List Nat
  ftitle : List Nat
  fsclass : List Nat
  fsclsy : List Nat
  fscode : List Nat
  fsctlh : List Nat
  fsrel : List Nat
  fsdctp : List Nat
  fsdcdt : List Nat
  fsdcxm : List Nat
  fsdg : List Nat
  fsdgdt : List Nat
  fscltx : List Nat
  fscatp : List Nat
  fscaut : List Nat
  fscrsn : List Nat
  fssrdt : List Nat
  fsctln : List Nat
  fscop : List Nat
  fscpys : List Nat
  encryp : List Nat
  fbkgc : RGB
  oname : List Nat
  ophone : List Nat
  fl : List Nat
  hl : List Nat
  numi : List Nat
deriving DecidableEq

/-- Source `parse_fbkgc`: `map!(take!(FBKGC_SIZE), |rgb| RGB(rgb[0], rgb[1], rgb[2]))`.
The indexing `rgb[k]` is rendered with `getD` (the slice returned by a
successful `take!(3)` always has length 3, so the default is never used). -/
def parse_fbkgc (input : List Nat) : NomIResult RGB :=
  NomIResult.bind (take FBKGC_SIZE input) fun rest rgb =>
    .done rest ⟨rgb.getD 0 0, rgb.getD 1 0, rgb.getD 2 0⟩

/-- Source `pub fn header(input: &[u8]) -> IResult<&[u8], NitfHeader>`: the
`do_parse!` chain of `take!`s, one per fixed field in table order, with the
background color range decoded by `parse_fbkgc`. -/
def header (input : List Nat) : NomIResult NitfHeader :=
  NomIResult.bind (take FHDR_SIZE input) fun r0 fhdr =>
  NomIResult.bind (take FVER_SIZE r0) fun r1 fver =>
  NomIResult.bind (take CLEVEL_SIZE r1) fun r2 clevel =>
  NomIResult.bind (take STYPE_SIZE r2) fun r3 stype =>
  NomIResult.bind (take OSTAID_SIZE r3) fun r4 ostaid =>
  NomIResult.bind (take FDT_SIZE r4) fun r5 fdt =>
  NomIResult.bind (take FTITLE_SIZE r5) fun r6 ftitle =>
  NomIResult.bind (take FSCLASS_SIZE r6) fun r7 fsclass =>
  NomIResult.bind (take FSCLSY_SIZE r7) fun r8 fsclsy =>
  NomIResult.bind (take FSCODE_SIZE r8) fun r9 fscode =>
  NomIResult.bind (take FSCTLH_SIZE r9) fun r10 fsctlh =>
  NomIResult.bind (take FSREL_SIZE r10) fun r11 fsrel =>
  NomIResult.bind (take FSDCTP_SIZE r11) fun r12 fsdctp =>
  NomIResult.bind (take FSDCDT_SIZE r12) fun r13 fsdcdt =>
  NomIResult.bind (take FSDCXM_SIZE r13) fun r14 fsdcxm =>
  NomIResult.bind (take FSDG_SIZE r14) fun r15 fsdg =>
  NomIResult.bind (take FSDGDT_SIZE r15) fun r16 fsdgdt =>
  NomIResult.bind (take FSCLTX_SIZE r16) fun r17 fscltx =>
  NomIResult.bind (take FSCATP_SIZE r17) fun r18 fscatp =>
  NomIResult.bind (take FSCAUT_SIZE r18) fun r19 fscaut =>
  NomIResult.bind (take FSCRSN_SIZE r19) fun r20 fscrsn =>
  NomIResult.bind (take FSSRDT_SIZE r20) fun r21 fssrdt =>
  NomIResult.bind (take FSCTLN_SIZE r21) fun r22 fsctln =>
  NomIResult.bind (take FSCOP_SIZE r22) fun r23 fscop =>
  NomIResult.bind (take FSCPYS_SIZE r23) fun r24 fscpys =>
  NomIResult.bind (take ENCRYP_SIZE r24) fun r25 encryp =>
  NomIResult.bind (parse_fbkgc r25) fun r26 fbkgc =>
  NomIResult.bind (take ONAME_SIZE r26) fun r27 oname =>
  NomIResult.bind (take OPHONE_SIZE r27) fun r28 ophone =>
  NomIResult.bind (take FL_SIZE r28) fun r29 fl =>
  NomIResult.bind (take HL_SIZE r29) fun r30 hl =>
  NomIResult.bind (take NUMI_SIZE r30) fun r31 numi =>
  .done r31
    { fhdr := fhdr, fver := fver, clevel := clevel, stype := stype,
      ostaid := ostaid, fdt := fdt, ftitle := ftitle, fsclass := fsclass,
      fsclsy := fsclsy, fscode := fscode, fsctlh := fsctlh, fsrel := fsrel,
      fsdctp := fsdctp, fsdcdt := fsdcdt, fsdcxm := fsdcxm, fsdg := fsdg,
      fsdgdt := fsdgdt, fscltx := fscltx, fscatp := fscatp, fscaut := fscaut,
      fscrsn := fscrsn, fssrdt := fssrdt, fsctln := fsctln, fscop := fscop,
      fscpys := fscpys, encryp := encryp, fbkgc := fbkgc, oname := oname,
      ophone := ophone, fl := fl, hl := hl, numi := numi }

/-- Result of a nom parser over a string: either `done rest output`, or
`error` — nom's failure outcome, produced by `digit` when the input does not
start with an ASCII decimal digit. -/
inductive NomStrResult (O : Type) where
  | done (rest : List Char) (output : O)
  | error
deriving DecidableEq

/-- Sequencing for string parsers, mirroring `NomIResult.bind`. -/
def NomStrResult.bind {α β : Type} (r : NomStrResult α) (f : List Char → α → NomStrResult β) :
    NomStrResult β :=
  match r with
  | .done rest a => f rest a
  | .error => .error

/-- nom `digit`: recognizes one or more ASCII decimal digits.  It consumes
the maximal leading run of digits, leaves the remainder unconsumed, and fails
when the input is empty or starts with a non-digit.  Modelled with
complete-input semantics: a digit run that reaches the end of the input is
returned as `done` with empty rest. -/
def digit (input : List Char) : NomStrResult (List Char) :=
  if (input.takeWhile Char.isDigit).isEmpty then .error
  else .done (input.dropWhile Char.isDigit) (input.takeWhile Char.isDigit)

deriving instance DecidableEq for Except

/-- Rust `ParseIntError` kinds relevant to `i8::from_str` on the inputs this
parser produces. -/
inductive ParseIntError where
  | empty
  | invalidDigit
  | posOverflow
deriving DecidableEq

/-- Numeric value of a run of ASCII digit characters, most significant first. -/
def digitsToNat (s : List Char) : Nat :=
  s.foldl (fun acc c => 10 * acc + (c.toNat - 48)) 0

/-- Rust `<i8 as FromStr>::from_str`, modelled for sign-free inputs (the only
inputs `num_from_str` ever passes are nonempty runs of ASCII digits): the
decimal value of the digits, failing with `posOverflow` when it exceeds
`i8::MAX = 127`.  The `empty` and `invalidDigit` branches are defensive and
unreachable from `num_from_str`. -/
def i8_from_str (s : List Char) : Except ParseIntError Int :=
  if s.isEmpty then .error .empty
  else if s.all Char.isDigit then
    if digitsToNat s ≤ 127 then .ok (digitsToNat s) else .error .posOverflow
  else .error .invalidDigit

/-- Source `num_from_str`: `named!(num_from_str <&str, Result<i8,ParseIntError>>,
map!(digit, FromStr::from_str))` — run `digit` and convert the matched run
with `i8::from_str`; the conversion result (ok or overflow error) is the
parser's output value. -/
def num_from_str (input : List Char) : NomStrResult (Except ParseIntError Int) :=
  NomStrResult.bind (digit input) fun rest s => .done rest (i8_from_str s)

/-- Rust `String::from_utf8_lossy` on the byte slices this parser feeds it:
ASCII bytes map to their character; a non-ASCII byte is rendered as U+FFFD.
Real lossy decoding may instead decode a valid multi-byte sequence to its
code point, but it never turns a byte outside 0x30-0x39 into an ASCII digit,
which is the only distinction the downstream code observes. -/
def from_utf8_lossy (bs : List Nat) : List Char :=
  bs.map fun b => if b < 128 then Char.ofNat b else '�'

/-- Outcome of `parse_lish_and_li`: a pair of descriptor vectors with the
remaining input, an `incomplete` from a failed `take!`, or `panicked` — the
source's catch-all `panic!("unable to parse numi")` branch, which terminates
the process instead of returning a typed error. -/
inductive LishResult where
  | done (rest : List Nat) (lish_vec : List (List Nat)) (li_vec : List (List Nat))
  | incomplete
  | panicked
deriving DecidableEq

/-- The repeating extraction loop of `parse_lish_and_li`.  The source loop
header is `for x in 1..num_lish`, which performs `num_lish - 1` iterations;
`fuel` is the number of iterations remaining.  The source loop body is a
non-compiling stub (two `map!(take!(..), push)` expressions that are never
applied to the input); it is modelled from its evident intent: each iteration
slices `LISH_SIZE` bytes then `LI_SIZE` bytes and appends each slice to the
corresponding vector. -/
def lish_loop : Nat → List Nat → List (List Nat) → List (List Nat) → LishResult
  | 0, input, lish_vec, li_vec => .done input lish_vec li_vec
  | n + 1, input, lish_vec, li_vec =>
    match take LISH_SIZE input with
    | .incomplete => .incomplete
    | .done r1 lish_bytes =>
      match take LI_SIZE r1 with
      | .incomplete => .incomplete
      | .done r2 li_bytes => lish_loop n r2 (lish_vec ++ [lish_bytes]) (li_vec ++ [li_bytes])

/-- Source `parse_lish_and_li(input, numi)`: decode the count field `numi`
with `String::from_utf8_lossy` and `num_from_str`; on `Done(_, Ok(num))` the
count is `num as usize` and the loop `for x in 1..num_lish` runs; every other
outcome (a non-digit-leading field, or an `i8` overflow inside the `Ok`
pattern) hits the catch-all arm `panic!("unable to parse numi")`. -/
def parse_lish_and_li (input : List Nat) (numi : List Nat) : LishResult :=
  match num_from_str (from_utf8_lossy numi) with
  | .done _ (.ok num) => lish_loop (num.toNat - 1) input [] []
  | _ => .panicked

/-- Byte range of a buffer: the `w` bytes starting at offset `off`. -/
def sliceAt (off w : Nat) (l : List Nat) : List Nat := (l.drop off).take w

/-- The header record as the spec's byte-layout table describes it: every
field is exactly the byte range of the input starting at the sum of all
preceding field widths — file-identifier at `[0,4)`, version at `[4,9)`, and
so on through the 3-byte segment-count field at `[360,363)`; the background
color is the triple of the three bytes at offsets 297, 298, 299.  This is the
spec-side description to be compared with what `header` computes. -/
def headerSpec (input : List Nat) : NitfHeader :=
  { fhdr := sliceAt 0 4 input
    fver := sliceAt 4 5 input
    clevel := sliceAt 9 2 input
    stype := sliceAt 11 4 input
    ostaid := sliceAt 15 10 input
    fdt := sliceAt 25 14 input
    ftitle := sliceAt 39 80 input
    fsclass := sliceAt 119 1 input
    fsclsy := sliceAt 120 2 input
    fscode := sliceAt 122 11 input
    fsctlh := sliceAt 133 2 input
    fsrel := sliceAt 135 20 input
    fsdctp := sliceAt 155 2 input
    fsdcdt := sliceAt 157 8 input
    fsdcxm := sliceAt 165 4 input
    fsdg := sliceAt 169 1 input
    fsdgdt := sliceAt 170 8 input
    fscltx := sliceAt 178 43 input
    fscatp := sliceAt 221 1 input
    fscaut := sliceAt 222 40 input
    fscrsn := sliceAt 262 1 input
    fssrdt := sliceAt 263 8 input
    fsctln := sliceAt 271 15 input
    fscop := sliceAt 286 5 input
    fscpys := sliceAt 291 5 input
    encryp := sliceAt 296 1 input
    fbkgc := ⟨(sliceAt 297 3 input).getD 0 0, (sliceAt 297 3 input).getD 1 0,
              (sliceAt 297 3 input).getD 2 0⟩
    oname := sliceAt 300 24 input
    ophone := sliceAt 324 18 input
    fl := sliceAt 342 12 input
    hl := sliceAt 354 6 input
    numi := sliceAt 360 3 input }

/-- Reduction of a `take!` bind whose range fits: the continuation receives
the sliced prefix and the advanced rest. -/
theorem bind_done {α β : Type} (rest : List Nat) (a : α) (f : List Nat → α → NomIResult β) :
    NomIResult.bind (.done rest a) f = f rest a := rfl

/-- A `take!` whose range fits hands the continuation the sliced prefix and
the rest of the buffer. -/
theorem take_bind_eq {β : Type} (n : Nat) (l : List Nat)
    (f : List Nat → List Nat → NomIResult β) (hn : n ≤ l.length) :
    NomIResult.bind (take n l) f = f (l.drop n) (l.take n) := by
  simp only [take, if_pos hn, NomIResult.bind]

/-- Associativity of parser sequencing, used to flatten the `parse_fbkgc`
sub-chain into the main chain. -/
theorem bind_assoc {α β γ : Type} (r : NomIResult α)
    (g : List Nat → α → NomIResult β) (f : List Nat → β → NomIResult γ) :
    NomIResult.bind (NomIResult.bind r g) f =
      NomIResult.bind r (fun rest a => NomIResult.bind (g rest a) f) := by
  cases r <;> simp only [NomIResult.bind]

/-- On any buffer holding all 363 bytes of fixed fields, the source chain
`header` succeeds, leaves the suffix from offset 363 as the remaining input,
and every decoded field is the byte range the layout table declares. -/
theorem header_eq (input : List Nat) (h : 363 ≤ input.length) :
    header input = .done (input.drop 363) (headerSpec input) := by
  simp only [header, parse_fbkgc, bind_assoc, FHDR_SIZE, FVER_SIZE, CLEVEL_SIZE, STYPE_SIZE,
    OSTAID_SIZE, FDT_SIZE, FTITLE_SIZE, FSCLASS_SIZE, FSCLSY_SIZE, FSCODE_SIZE,
    FSCTLH_SIZE, FSREL_SIZE, FSDCTP_SIZE, FSDCDT_SIZE, FSDCXM_SIZE, FSDG_SIZE,
    FSDGDT_SIZE, FSCLTX_SIZE, FSCATP_SIZE, FSCAUT_SIZE, FSCRSN_SIZE, FSSRDT_SIZE,
    FSCTLN_SIZE, FSCOP_SIZE, FSCPYS_SIZE, ENCRYP_SIZE, FBKGC_SIZE, ONAME_SIZE,
    OPHONE_SIZE, FL_SIZE, HL_SIZE, NUMI_SIZE]
  simp (disch := (try simp only [List.length_drop]); omega) only [take_bind_eq, bind_done]
  simp [headerSpec, sliceAt, List.drop_drop]

/-- Inversion of one `take!` step: a successful chain implies the requested
range fit and the continuation succeeded on the advanced state. -/
theorem take_bind_done_inv {β : Type} {n : Nat} {l rest : List Nat} {out : β}
    {f : List Nat → List Nat → NomIResult β}
    (h : NomIResult.bind (take n l) f = NomIResult.done rest out) :
    n ≤ l.length ∧ f (l.drop n) (l.take n) = NomIResult.done rest out := by
  by_cases hn : n ≤ l.length
  · refine ⟨hn, ?_⟩
    rwa [take_bind_eq n l f hn] at h
  · exfalso
    rw [take, if_neg hn] at h
    exact NomIResult.noConfusion h

set_option maxHeartbeats 1600000 in
/-- A successful run of `header` needs at least the 363 bytes of fixed
fields: every `take!` in the chain checked its range against the buffer. -/
theorem header_done_length (input : List Nat) (rest : List Nat) (out : NitfHeader)
    (hr : header input = .done rest out) : 363 ≤ input.length := by
  simp only [header, parse_fbkgc, bind_assoc, FHDR_SIZE, FVER_SIZE, CLEVEL_SIZE, STYPE_SIZE,
    OSTAID_SIZE, FDT_SIZE, FTITLE_SIZE, FSCLASS_SIZE, FSCLSY_SIZE, FSCODE_SIZE,
    FSCTLH_SIZE, FSREL_SIZE, FSDCTP_SIZE, FSDCDT_SIZE, FSDCXM_SIZE, FSDG_SIZE,
    FSDGDT_SIZE, FSCLTX_SIZE, FSCATP_SIZE, FSCAUT_SIZE, FSCRSN_SIZE, FSSRDT_SIZE,
    FSCTLN_SIZE, FSCOP_SIZE, FSCPYS_SIZE, ENCRYP_SIZE, FBKGC_SIZE, ONAME_SIZE,
    OPHONE_SIZE, FL_SIZE, HL_SIZE, NUMI_SIZE] at hr
  iterate 32
    (try simp only [bind_done] at hr)
    obtain ⟨hn, hr⟩ := take_bind_done_inv hr
  simp only [List.length_drop] at hn
  omega

/-- On any buffer shorter than the 363 bytes of fixed fields, the source
chain `header` reports `incomplete` (nom `Incomplete`): some `take!` range
check fails before slicing, and no header record is produced. -/
theorem header_incomplete (input : List Nat) (h : input.length < 363) :
    header input = .incomplete := by
  cases hr : header input with
  | done rest out => exact absurd (header_done_length input rest out hr) (by omega)
  | incomplete => rfl

/-- Restriction of a slice to a 363-byte prefix is invisible to ranges that
lie inside the prefix. -/
theorem sliceAt_take (k w m : Nat) (l : List Nat) (h : k + w ≤ m) :
    sliceAt k w (l.take m) = sliceAt k w l := by
  simp only [sliceAt, List.drop_take, List.take_take]
  congr 1
  omega

/-- The spec-side header record only looks at the first 363 bytes. -/
theorem headerSpec_take (l : List Nat) : headerSpec (l.take 363) = headerSpec l := by
  simp (disch := omega) only [headerSpec, sliceAt_take]

/-- C2: the header parser extracts every fixed field in table order with the
declared constant widths: on any buffer of length at least 363, each decoded
field is exactly the byte range of the input starting at the sum of the
preceding field widths — file-identifier at bytes `[0,4)`, version at
`[4,9)`, and so on through the 3-byte image-segment-count field ending at
offset 363 — as recorded by `headerSpec`. -/
theorem header_fields_at_declared_offsets (input : List Nat) (h : 363 ≤ input.length) :
    header input = .done (input.drop 363) (headerSpec input) :=
  header_eq input h

theorem header_fields_at_declared_offsets_witness :
    363 ≤ (List.range 363).length ∧
      header (List.range 363) =
        .done ((List.range 363).drop 363) (headerSpec (List.range 363)) :=
  ⟨by simp, header_fields_at_declared_offsets (List.range 363) (by simp)⟩

/-- C3: truncating any buffer at an offset strictly before the end of the
last required fixed field (offset 363) makes decoding fail with the
end-of-buffer outcome (nom `Incomplete`); no partially populated header
record is ever returned, and the range check happens before any slice is
taken. -/
theorem header_truncated_incomplete (input : List Nat) (k : Nat) (hk : k < 363) :
    header (input.take k) = .incomplete := by
  apply header_incomplete
  simp only [List.length_take]
  omega

theorem header_truncated_incomplete_witness :
    100 < 363 ∧ header ((List.range 363).take 100) = .incomplete :=
  ⟨by omega, header_truncated_incomplete (List.range 363) 100 (by omega)⟩

/-- C7: background color round-trip — for every 3-byte input reaching the
color decoder, the decoded triple's channels are exactly the three source
bytes, in order. -/
theorem parse_fbkgc_roundtrip (b0 b1 b2 : Nat) (rest : List Nat) :
    parse_fbkgc (b0 :: b1 :: b2 :: rest) = .done rest ⟨b0, b1, b2⟩ := by
  rw [parse_fbkgc, FBKGC_SIZE, take_bind_eq _ _ _ (by simp)]
  simp

/-- C9: on any buffer with at least 363 bytes the public entry point
`header` succeeds, consumes exactly the 363 bytes of fixed fields, and
returns the suffix from offset 363 as the remaining input; its value is
already determined by the first 363 bytes alone (second conjunct), so no
descriptor pair beyond the count field is ever read and no segment
directory is part of the produced value. -/
theorem header_consumes_exactly_fixed_fields (input : List Nat) (h : 363 ≤ input.length) :
    header input = .done (input.drop 363) (headerSpec input) ∧
      header (input.take 363) = .done [] (headerSpec input) := by
  refine ⟨header_eq input h, ?_⟩
  rw [header_eq (input.take 363) (by simp only [List.length_take]; omega), headerSpec_take]
  congr 1
  apply List.drop_eq_nil_of_le
  simp only [List.length_take]
  omega

theorem header_consumes_exactly_fixed_fields_witness :
    363 ≤ (List.range 400).length ∧
      (header (List.range 400) = .done ((List.range 400).drop 363) (headerSpec (List.range 400)) ∧
        header ((List.range 400).take 363) = .done [] (headerSpec (List.range 400))) :=
  ⟨by simp, header_consumes_exactly_fixed_fields (List.range 400) (by simp)⟩

/-- C1 (evaluation at the failing input): with count field "003" (bytes
48,48,51) and 48 bytes of descriptor data — enough for three (6+10)-byte
pairs — the source loop `for x in 1..num_lish` performs only 2 iterations,
so the directory has 2 descriptors, not the 3 the count declares. -/
theorem parse_lish_count3_yields_two_descriptors :
    parse_lish_and_li (List.replicate 48 7) [48, 48, 51] =
      .done (List.replicate 16 7) [List.replicate 6 7, List.replicate 6 7]
        [List.replicate 10 7, List.replicate 10 7] := by decide

/-- C4 (evaluation at the failing inputs): a count field of three ASCII
spaces makes `num_from_str` fail and `parse_lish_and_li` hit its
`panic` arm — there is no typed MalformedCountField error — and a count
field "1  " (digit then spaces) is silently accepted with the value of its
digit prefix instead of failing. -/
theorem count_field_nondigit_not_typed_error :
    parse_lish_and_li [] [32, 32, 32] = .panicked ∧
      parse_lish_and_li (List.replicate 20 0) [49, 32, 32] =
        .done (List.replicate 20 0) [] [] := by decide

/-- C5 (evaluation at the failing input): the all-digit 3-byte count field
"200" (bytes 50,48,48) is inside the field-width range 0-999, but the code
converts through `i8` (maximum 127), so `num_from_str` yields an overflow
error and `parse_lish_and_li` hits its `panic` arm instead of parsing
successfully. -/
theorem count_field_all_digits_200_fails :
    num_from_str (from_utf8_lossy [50, 48, 48]) = .done [] (.error .posOverflow) ∧
      parse_lish_and_li (List.replicate 48 0) [50, 48, 48] = .panicked := by decide

/-- C6 (evaluation at the failing input): a failure to parse the
segment-count field ("ABC") is not returned as a typed error result — the
source calls the `panic` macro, terminating the process. -/
theorem count_parse_failure_terminates_process :
    parse_lish_and_li (List.replicate 48 0) [65, 66, 67] = .panicked := by decide

/-- Closed form of `num_from_str`. -/
theorem num_from_str_eq (input : List Char) :
    num_from_str input =
      if (input.takeWhile Char.isDigit).isEmpty then .error
      else NomStrResult.done (input.dropWhile Char.isDigit)
        (i8_from_str (input.takeWhile Char.isDigit)) := by
  rw [num_from_str, digit]
  by_cases he : (input.takeWhile Char.isDigit).isEmpty <;>
    simp [he, NomStrResult.bind]

/-- C10: `num_from_str` succeeds exactly when its input begins with at least
one ASCII decimal digit; on success it has consumed the maximal leading run
of digits (the input is that run followed by the unconsumed rest, whose
first character — if any — is a non-digit), and its output value is the
`i8` conversion of the run: the run's numeric value when it is at most 127,
and a `posOverflow` conversion error otherwise. -/
theorem num_from_str_characterisation (input : List Char) :
    ((∃ rest v, num_from_str input = .done rest v) ↔
        ∃ c rest, input = c :: rest ∧ c.isDigit) ∧
    ∀ rest v, num_from_str input = .done rest v →
      rest = input.dropWhile Char.isDigit ∧
      input = input.takeWhile Char.isDigit ++ rest ∧
      input.takeWhile Char.isDigit ≠ [] ∧
      (∀ c ∈ input.takeWhile Char.isDigit, c.isDigit) ∧
      (∀ c, rest.head? = some c → ¬ c.isDigit) ∧
      v = (if digitsToNat (input.takeWhile Char.isDigit) ≤ 127
           then Except.ok (Int.ofNat (digitsToNat (input.takeWhile Char.isDigit)))
           else Except.error ParseIntError.posOverflow) := by
  rw [num_from_str_eq]
  by_cases he : (input.takeWhile Char.isDigit).isEmpty
  · rw [if_pos he]
    constructor
    · constructor
      · rintro ⟨rest, v, hv⟩
        exact NomStrResult.noConfusion hv
      · rintro ⟨c, rest, hin, hc⟩
        subst hin
        rw [List.takeWhile_cons, if_pos hc] at he
        simp [List.isEmpty] at he
    · intro rest v hv
      exact NomStrResult.noConfusion hv
  · rw [if_neg he]
    rw [Bool.not_eq_true, List.isEmpty_eq_false] at he
    constructor
    · constructor
      · intro _
        cases hin : input with
        | nil => subst hin; simp at he
        | cons c t =>
          subst hin
          rw [List.takeWhile_cons] at he
          by_cases hc : c.isDigit
          · exact ⟨c, t, rfl, hc⟩
          · rw [if_neg (by simp [hc])] at he
            exact absurd rfl he
      · intro _
        exact ⟨_, _, rfl⟩
    · intro rest v hv
      obtain ⟨hrest, hval⟩ : rest = input.dropWhile Char.isDigit ∧
          v = i8_from_str (input.takeWhile Char.isDigit) := by
        cases hv
        exact ⟨rfl, rfl⟩
      subst hrest
      subst hval
      refine ⟨rfl, (List.takeWhile_append_dropWhile Char.isDigit input).symm, he, ?_, ?_, ?_⟩
      · intro c hc
        exact List.mem_takeWhile_imp hc
      · intro c hc
        have hd := List.head?_dropWhile_not Char.isDigit input
        rw [hc] at hd
        simp only at hd
        simp [hd]
      · rw [i8_from_str]
        rw [if_neg (by simp [List.isEmpty_eq_false, he])]
        rw [if_pos ?_]
        · rfl
        · rw [List.all_eq_true]
          intro c hc
          exact List.mem_takeWhile_imp hc

theorem num_from_str_characterisation_witness :
    ∃ rest v, num_from_str ['1', ' '] = .done rest v :=
  (num_from_str_characterisation ['1', ' ']).1.mpr ⟨'1', [' '], rfl, by decide⟩

end Nitf
